import Mathlib

/-!
Shallow embedding of the clippy lint `rc_clone_in_vec_init`
(file clippy_lints/src/rc_clone_in_vec_init.rs).

The lint inspects one candidate expression at a time.  The host compiler
(rustc plus the clippy_utils crate) supplies, per the boundary contract of
the specification, the macro recognition, the structural `vec![elem; len]`
view, path resolution, diagnostic-name classification, source-text
extraction and indentation measurement.  Those capabilities are modelled as
read-only function fields of a `Context`; the code under verification is
everything below that boundary, translated function by function from the
Rust source.
-/

/-- Opaquely identified source span, owned by the host. -/
structure Span where
  id : Nat
deriving DecidableEq

/-- Identifier of a path segment (`ident.name` in HIR). -/
structure Ident where
  name : String
deriving DecidableEq

/-- The kinds of HIR types the lint distinguishes: `TyKind::Path(ty_path)`
holds an opaque token standing for the written type path (the resolution
key the host uses), every other type kind is collapsed into `other`. -/
inductive TyKind where
  | path (ty_path : Nat)
  | other
deriving DecidableEq

/-- An HIR type node: its kind plus the `hir_id` used for resolution. -/
structure Ty where
  kind : TyKind
  hirId : Nat
deriving DecidableEq

mutual
/-- HIR expression node: kind plus span. -/
inductive Expr where
  | mk (kind : ExprKind) (span : Span)

/-- The expression kinds the lint distinguishes: `Call(func, args)`,
`Path(qpath)`, and everything else collapsed into `other`. -/
inductive ExprKind where
  | call (func : Expr) (args : List Expr)
  | path (qpath : QPath)
  | other

/-- Qualified paths: `TypeRelative(ty, segment)` carries the type and the
final path segment (what `last_path_segment` returns); the remaining HIR
variants are collapsed into `otherQPath`. -/
inductive QPath where
  | typeRelative (ty : Ty) (segment : Ident)
  | otherQPath
end

def Expr.kind : Expr → ExprKind
  | .mk k _ => k

def Expr.span : Expr → Span
  | .mk _ s => s

/-- Result of `clippy_utils::higher::VecArgs::hir`: the normalized view of a
`vec!` invocation, either `vec![elem; len]` or `vec![a, b, c]`. -/
inductive VecArgs where
  | Repeat (elem : Expr) (len : Expr)
  | Vec (args : List Expr)

/-- Result of `root_macro_call_first_node`: the lint only uses its span. -/
structure MacroCall where
  span : Span
deriving DecidableEq

namespace sym

def new : String := "new"

def Arc : String := "Arc"

def Rc : String := "Rc"

end sym

/-- Rustc suggestion applicability; the lint only uses `Unspecified`. -/
inductive Applicability where
  | unspecified
deriving DecidableEq

/-- Host boundary: the read-only capabilities the lint consumes, one field
per external query named in the boundary contract of the specification. -/
structure Context where
  root_macro_call_first_node : Expr → Option MacroCall
  vec_args_hir : Expr → Option VecArgs
  qpath_res_opt_def_id : Nat → Nat → Option Nat
  get_diagnostic_name : Nat → Option String
  snippet_opt : Span → Option String
  indent_of : Span → Option Nat

/-- The clippy helper `snippet(cx, span, default)`: the source text of the
span, or the default placeholder when the text is unavailable. -/
def snippet (cx : Context) (span : Span) (dflt : String) : String :=
  (cx.snippet_opt span).getD dflt

/-- Checks whether the given `expr` is a call to `Arc::new` or `Rc::new`
(function `new_reference_call`, lines 150 to 164 of the Rust source).  The
chain requires: a call whose callee is a type-relative path `Ty::seg`, the
type written as a path, that path resolving to a definition id, the final
segment named `new`, and the diagnostic name of the resolved definition
being `Arc` or `Rc`. -/
def new_reference_call (cx : Context) (expr : Expr) : Option String :=
  match expr.kind with
  | .call func _args =>
    match func.kind with
    | .path (.typeRelative ty segment) =>
      match ty.kind with
      | .path ty_path =>
        match cx.qpath_res_opt_def_id ty_path ty.hirId with
        | some def_id =>
          if segment.name == sym.new then
            (cx.get_diagnostic_name def_id).filter fun symbol =>
              symbol == sym.Arc || symbol == sym.Rc
          else none
        | none => none
      | .other => none
    | _ => none
  | _ => none

/-- The confirmed detection flowing from the Matcher to the Suggestion
Builder: pointer-kind symbol, macro-call span, element and count. -/
structure MatchResult where
  symbol : String
  span : Span
  elem : Expr
  len : Expr

/-- The Matcher: the three guard lines of `check_expr` (lines 51 to 53 of
the Rust source).  It requires the expression to be the first node of a
root macro call, to have the `vec![elem; len]` shape, and its element to
pass `new_reference_call`; the extracted data is what `emit_lint`
receives. -/
def matcher (cx : Context) (expr : Expr) : Option MatchResult :=
  match cx.root_macro_call_first_node expr with
  | none => none
  | some macro_call =>
    match cx.vec_args_hir expr with
    | some (.Repeat elem len) =>
      match new_reference_call cx elem with
      | none => none
      | some symbol => some ⟨symbol, macro_call.span, elem, len⟩
    | _ => none

/-- Helper for `split_once`: finds the first occurrence of `pat` in the
character list and returns the parts before and after it. -/
def splitOnceChars (pat : List Char) : List Char → Option (List Char × List Char)
  | [] => if pat.isPrefixOf ([] : List Char) then some ([], []) else none
  | c :: rest =>
    if pat.isPrefixOf (c :: rest) then some ([], (c :: rest).drop pat.length)
    else (splitOnceChars pat rest).map fun p => (c :: p.1, p.2)

/-- The Rust `str::split_once`: splits the string around the first
occurrence of the pattern, or returns `none` when the pattern is absent. -/
def split_once (s pat : String) : Option (String × String) :=
  (splitOnceChars pat.data s.data).map fun p => (String.mk p.1, String.mk p.2)

/-- Function `elem_snippet` (lines 92 to 104 of the Rust source).  The
multi-line branch performs `split_once(..).unwrap()`; the `unwrap` of a
failed `split_once` is a panic in Rust and is modelled as `none` here,
`some` being the normally returned string. -/
def elem_snippet (cx : Context) (elem : Expr) (symbol_name : String) : Option String :=
  let s := snippet cx elem.span ".."
  if s.data.contains '\n' then
    let reference_creation := symbol_name ++ "::new"
    match split_once s reference_creation with
    | some p => some (p.1 ++ reference_creation ++ "(..)")
    | none => none
  else
    some s

/-- The `" ".repeat(n)` indentation unit: `n` space characters. -/
def spaces (n : Nat) : String :=
  String.mk (List.replicate n ' ')

/-- Function `loop_init_suggestion` (lines 106 to 114): the raw-string
template of the loop-based rewrite, braces and newlines verbatim. -/
def loop_init_suggestion (elem len indent : String) : String :=
  "\x7b\n" ++ indent ++ indent ++ "let mut v = Vec::with_capacity(" ++ len ++ ");\n"
    ++ indent ++ indent ++ "(0.." ++ len ++ ").for_each(|_| v.push(" ++ elem ++ "));\n"
    ++ indent ++ indent ++ "v\n" ++ indent ++ "\x7d"

/-- Function `extract_suggestion` (lines 116 to 123): the template of the
variable-extraction rewrite. -/
def extract_suggestion (elem len indent : String) : String :=
  "\x7b\n" ++ indent ++ indent ++ "let data = " ++ elem ++ ";\n"
    ++ indent ++ indent ++ "vec![data; " ++ len ++ "]\n" ++ indent ++ "\x7d"

/-- One suggestion as built by `construct_lint_suggestions`. -/
structure LintSuggestion where
  message : String
  snippet : String
deriving DecidableEq

/-- Function `construct_lint_suggestions` (lines 64 to 90): count snippet,
element snippet, indentation defaulted to 0 when undeterminable, then the
two suggestions in fixed order.  The element-snippet panic (modelled as
`none`) aborts the construction. -/
def construct_lint_suggestions (cx : Context) (span : Span) (symbol_name : String)
    (elem : Expr) (len : Expr) : Option (List LintSuggestion) :=
  let len_snippet := snippet cx len.span ".."
  match elem_snippet cx elem symbol_name with
  | none => none
  | some es =>
    let indentation := (cx.indent_of span).getD 0
    let indentation := spaces indentation
    some [
      { message := "consider initializing each `" ++ symbol_name ++ "` element individually",
        snippet := loop_init_suggestion es len_snippet indentation },
      { message := "or if this is intentional, consider extracting the `" ++ symbol_name
          ++ "` initialization to a variable",
        snippet := extract_suggestion es len_snippet indentation } ]

/-- One span suggestion as attached to the diagnostic by
`diag.span_suggestion(lint_span, message, snippet, applicability)`. -/
structure Suggestion where
  span : Span
  message : String
  snippet : String
  applicability : Applicability
deriving DecidableEq

/-- The structured diagnostic handed to the host sink by
`span_lint_and_then`: primary message at the lint span, one note, and the
attached suggestions. -/
structure DiagnosticPayload where
  span : Span
  primary_message : String
  note : String
  suggestions : List Suggestion
deriving DecidableEq

/-- Function `emit_lint` (lines 125 to 147): primary message, note, and the
two suggestions, all anchored at `lint_span`.  A panic inside the decorated
closure (the modelled `none` of `construct_lint_suggestions`) aborts the
whole emission, so no payload reaches the sink in that case. -/
def emit_lint (cx : Context) (symbol : String) (lint_span : Span)
    (elem : Expr) (len : Expr) : Option DiagnosticPayload :=
  let symbol_name := symbol
  match construct_lint_suggestions cx lint_span symbol_name elem len with
  | none => none
  | some suggestions =>
    some
      { span := lint_span
        primary_message := "calling `" ++ symbol_name ++ "::new` in `vec![elem; len]`"
        note := "each element will point to the same `" ++ symbol_name ++ "` instance"
        suggestions := suggestions.map fun s =>
          { span := lint_span
            message := s.message
            snippet := s.snippet
            applicability := .unspecified } }

/-- The body of `RcCloneInVecInit::check_expr` (lines 50 to 57): the three
matcher guards followed by `emit_lint`.  Returns the emitted payload, or
`none` when the rule is silent (or when emission aborts). -/
def check_expr (cx : Context) (expr : Expr) : Option DiagnosticPayload :=
  match matcher cx expr with
  | none => none
  | some m => emit_lint cx m.symbol m.span m.elem m.len

/-- The lint pass state declared by `declare_lint_pass!`: a fieldless
struct, so the pass carries no state at all. -/
structure RcCloneInVecInit where
deriving DecidableEq

/-- One invocation of the pass method on `&mut self`: the returned first
component is the (unchanged) pass state after the call. -/
def RcCloneInVecInit.run_check_expr (self : RcCloneInVecInit) (cx : Context)
    (expr : Expr) : RcCloneInVecInit × Option DiagnosticPayload :=
  (self, check_expr cx expr)

/-! ### Concrete hosts used by the closed evaluations below

Span layout shared by all fixtures: 0 is the whole expression produced by
the `vec!` expansion, 1 the repeated element, 2 the callee path, 3 the
count, 4 an argument, 10 the root macro call. -/

/-- The `new` path segment. -/
def segNew : Ident := ⟨"new"⟩

/-- Fixture for the program `let v = vec![Rc::new(0); 5];` with `Rc`
imported under its own name: written type-path token 5 at hir id 6. -/
def tyOk : Ty := ⟨.path 5, 6⟩

def funcOk : Expr := .mk (.path (.typeRelative tyOk segNew)) ⟨2⟩

def argOk : Expr := .mk .other ⟨4⟩

def elemOk : Expr := .mk (.call funcOk [argOk]) ⟨1⟩

def lenOk : Expr := .mk .other ⟨3⟩

def exprOk : Expr := .mk .other ⟨0⟩

/-- Host answers for that program: token 5 at hir id 6 resolves to
definition 77 whose diagnostic name is `Rc`; the element text is
`Rc::new(0)`, the count text is `5`; indentation is undeterminable. -/
def cxOk : Context where
  root_macro_call_first_node := fun e => if e.span = ⟨0⟩ then some ⟨⟨10⟩⟩ else none
  vec_args_hir := fun e => if e.span = ⟨0⟩ then some (.Repeat elemOk lenOk) else none
  qpath_res_opt_def_id := fun p h => if p = 5 ∧ h = 6 then some 77 else none
  get_diagnostic_name := fun d => if d = 77 then some "Rc" else none
  snippet_opt := fun s =>
    if s = ⟨1⟩ then some "Rc::new(0)" else if s = ⟨3⟩ then some "5" else none
  indent_of := fun _ => none

/-- The payload `check_expr` emits on the fixture above. -/
def dOk : DiagnosticPayload where
  span := ⟨10⟩
  primary_message := "calling `Rc::new` in `vec![elem; len]`"
  note := "each element will point to the same `Rc` instance"
  suggestions := [
    ⟨⟨10⟩, "consider initializing each `Rc` element individually",
      "\x7b\nlet mut v = Vec::with_capacity(5);\n(0..5).for_each(|_| v.push(Rc::new(0)));\nv\n\x7d",
      .unspecified⟩,
    ⟨⟨10⟩, "or if this is intentional, consider extracting the `Rc` initialization to a variable",
      "\x7b\nlet data = Rc::new(0);\nvec![data; 5]\n\x7d",
      .unspecified⟩ ]


/-- Fixture for the program `use std::rc::Rc as R;` followed by
`let v = vec![R::new(
    0,
); 7];` — the written type-path token 8 at hir id 9 is the alias `R`,
which still resolves to the `Rc` definition 77. -/
def tyR : Ty := ⟨.path 8, 9⟩

def funcR : Expr := .mk (.path (.typeRelative tyR segNew)) ⟨2⟩

def elemR : Expr := .mk (.call funcR [Expr.mk .other ⟨4⟩]) ⟨1⟩

def lenR : Expr := .mk .other ⟨3⟩

def exprR : Expr := .mk .other ⟨0⟩

/-- Host answers for the aliased `Rc` program: the element text is the
multi-line `R::new(\n    0,\n)`, which does not contain `Rc::new`. -/
def cxR : Context where
  root_macro_call_first_node := fun e => if e.span = ⟨0⟩ then some ⟨⟨10⟩⟩ else none
  vec_args_hir := fun e => if e.span = ⟨0⟩ then some (.Repeat elemR lenR) else none
  qpath_res_opt_def_id := fun p h => if p = 8 ∧ h = 9 then some 77 else none
  get_diagnostic_name := fun d => if d = 77 then some "Rc" else none
  snippet_opt := fun s =>
    if s = ⟨1⟩ then some "R::new(\n    0,\n)" else if s = ⟨3⟩ then some "7" else none
  indent_of := fun _ => some 0


/-- Fixture for the program `use std::sync::Arc as A;` followed by
`let v = vec![A::new(String::from(
    "x",
)); 100];` — token 15 at hir id 16 is the alias `A`, resolving to the
`Arc` definition 78. -/
def tyA : Ty := ⟨.path 15, 16⟩

def funcA : Expr := .mk (.path (.typeRelative tyA segNew)) ⟨2⟩

def elemA : Expr := .mk (.call funcA [Expr.mk .other ⟨4⟩]) ⟨1⟩

def lenA : Expr := .mk .other ⟨3⟩

def exprA : Expr := .mk .other ⟨0⟩

/-- Host answers for the aliased `Arc` program: the element text is
multi-line and does not contain `Arc::new`. -/
def cxA : Context where
  root_macro_call_first_node := fun e => if e.span = ⟨0⟩ then some ⟨⟨10⟩⟩ else none
  vec_args_hir := fun e => if e.span = ⟨0⟩ then some (.Repeat elemA lenA) else none
  qpath_res_opt_def_id := fun p h => if p = 15 ∧ h = 16 then some 78 else none
  get_diagnostic_name := fun d => if d = 78 then some "Arc" else none
  snippet_opt := fun s =>
    if s = ⟨1⟩ then some "A::new(String::from(\n    \"x\",\n))"
    else if s = ⟨3⟩ then some "100" else none
  indent_of := fun _ => some 0


/-- Fixture for the program `let v = vec![std::sync::
Arc::new(..); 3];` — a fully qualified path broken across lines right
before its last type segment, with `(..)` (a `RangeFull` value) as the
constructor argument.  Token 20 at hir id 21 resolves to `Arc`. -/
def tyQ : Ty := ⟨.path 20, 21⟩

def funcQ : Expr := .mk (.path (.typeRelative tyQ segNew)) ⟨2⟩

def elemQ : Expr := .mk (.call funcQ [Expr.mk .other ⟨4⟩]) ⟨1⟩

def lenQ : Expr := .mk .other ⟨3⟩

def exprQ : Expr := .mk .other ⟨0⟩

/-- Host answers for that program: the element text is the multi-line
`std::sync::\nArc::new(..)`. -/
def cxQ : Context where
  root_macro_call_first_node := fun e => if e.span = ⟨0⟩ then some ⟨⟨10⟩⟩ else none
  vec_args_hir := fun e => if e.span = ⟨0⟩ then some (.Repeat elemQ lenQ) else none
  qpath_res_opt_def_id := fun p h => if p = 20 ∧ h = 21 then some 78 else none
  get_diagnostic_name := fun d => if d = 78 then some "Arc" else none
  snippet_opt := fun s =>
    if s = ⟨1⟩ then some "std::sync::\nArc::new(..)" else if s = ⟨3⟩ then some "3" else none
  indent_of := fun _ => some 0


/-- Fixture with two spellings of the same constructor in one program:
token 5 at hir id 6 (the plain `Rc`) and token 9 at hir id 12 (a re-export
alias) both resolve to definition 77, the `Rc` declaration. -/
def tyB : Ty := ⟨.path 9, 12⟩

def funcB : Expr := .mk (.path (.typeRelative tyB segNew)) ⟨2⟩

def elemB : Expr := .mk (.call funcB [Expr.mk .other ⟨4⟩]) ⟨6⟩

def cxB : Context where
  root_macro_call_first_node := fun _ => none
  vec_args_hir := fun _ => none
  qpath_res_opt_def_id := fun p h =>
    if p = 5 ∧ h = 6 then some 77 else if p = 9 ∧ h = 12 then some 77 else none
  get_diagnostic_name := fun d => if d = 77 then some "Rc" else none
  snippet_opt := fun _ => none
  indent_of := fun _ => none


/-- Bridge between the boolean prefix test on character lists and the
propositional prefix relation. -/
theorem isPrefixOf_iff (l1 l2 : List Char) : l1.isPrefixOf l2 = true ↔ l1 <+: l2 := by
  exact List.isPrefixOf_iff_prefix

/-- Soundness of `splitOnceChars`: a successful split is a decomposition of
the input around the pattern, and the part before the pattern is shortest
possible, i.e. the split happens at the first occurrence. -/
theorem splitOnceChars_sound (pat : List Char) :
    ∀ (s l r : List Char), splitOnceChars pat s = some (l, r) →
      s = l ++ pat ++ r ∧ ∀ l2 r2, s = l2 ++ pat ++ r2 → l.length ≤ l2.length := by
  intro s
  induction s with
  | nil =>
    intro l r h
    unfold splitOnceChars at h
    by_cases hp : pat.isPrefixOf ([] : List Char)
    · rw [if_pos hp] at h
      simp only [Option.some.injEq, Prod.mk.injEq] at h
      obtain ⟨hl, hr⟩ := h
      subst hl
      subst hr
      have hpat : pat = [] := List.prefix_nil.mp ((isPrefixOf_iff pat []).mp hp)
      subst hpat
      exact ⟨rfl, by intro l2 r2 h2; simp⟩
    · rw [if_neg hp] at h
      exact absurd h (by simp)
  | cons c rest ih =>
    intro l r h
    unfold splitOnceChars at h
    by_cases hp : pat.isPrefixOf (c :: rest)
    · rw [if_pos hp] at h
      simp only [Option.some.injEq, Prod.mk.injEq] at h
      obtain ⟨hl, hr⟩ := h
      subst hl
      subst hr
      obtain ⟨t, ht⟩ := (isPrefixOf_iff pat (c :: rest)).mp hp
      constructor
      · conv_lhs => rw [← ht]
        rw [List.nil_append, ← ht, List.drop_left]
      · intro l2 r2 h2
        simp
    · rw [if_neg hp] at h
      obtain ⟨⟨l1, r1⟩, hrec, heq⟩ := Option.map_eq_some'.mp h
      simp only [Prod.mk.injEq] at heq
      obtain ⟨hl, hr⟩ := heq
      subst hl
      subst hr
      obtain ⟨hdec, hmin⟩ := ih l1 r1 hrec
      refine ⟨by simp [hdec], ?_⟩
      intro l2 r2 h2
      cases l2 with
      | nil =>
        exfalso
        apply hp
        rw [List.nil_append] at h2
        exact (isPrefixOf_iff pat (c :: rest)).mpr ⟨r2, h2.symm⟩
      | cons c2 l2t =>
        simp only [List.cons_append, List.cons.injEq] at h2
        obtain ⟨-, h2t⟩ := h2
        have hle := hmin l2t r2 h2t
        simpa using Nat.succ_le_succ hle
/-- Completeness of `splitOnceChars`: it succeeds on every input that
contains the pattern. -/
theorem splitOnceChars_isSome (pat : List Char) :
    ∀ (l r : List Char), (splitOnceChars pat (l ++ pat ++ r)).isSome = true := by
  intro l
  induction l with
  | nil =>
    intro r
    rw [List.nil_append]
    cases hpr : pat ++ r with
    | nil =>
      obtain ⟨hp, hr⟩ := List.append_eq_nil.mp hpr
      subst hp
      subst hr
      simp [splitOnceChars, List.isPrefixOf]
    | cons c t =>
      unfold splitOnceChars
      have hp : pat.isPrefixOf (c :: t) := (isPrefixOf_iff pat (c :: t)).mpr ⟨r, hpr⟩
      rw [if_pos hp]
      rfl
  | cons c lt ih =>
    intro r
    rw [List.cons_append, List.cons_append]
    unfold splitOnceChars
    by_cases hp : pat.isPrefixOf (c :: (lt ++ pat ++ r))
    · rw [if_pos hp]
      rfl
    · rw [if_neg hp]
      obtain ⟨p, hpz⟩ := Option.isSome_iff_exists.mp (ih r)
      rw [hpz]
      rfl

/-- Inversion of a successful run: when `check_expr` emits a payload, every
guard of the matcher succeeded, the element snippet was constructed, and
the payload is exactly the record `emit_lint` builds from those parts. -/
theorem check_expr_some_inv (cx : Context) (e : Expr) (d : DiagnosticPayload)
    (h : check_expr cx e = some d) :
    ∃ mc elem len symb es,
      cx.root_macro_call_first_node e = some mc
      ∧ cx.vec_args_hir e = some (.Repeat elem len)
      ∧ new_reference_call cx elem = some symb
      ∧ elem_snippet cx elem symb = some es
      ∧ d = { span := mc.span
              primary_message := "calling `" ++ symb ++ "::new` in `vec![elem; len]`"
              note := "each element will point to the same `" ++ symb ++ "` instance"
              suggestions := [
                ⟨mc.span, "consider initializing each `" ++ symb ++ "` element individually",
                  loop_init_suggestion es (snippet cx len.span "..")
                    (spaces ((cx.indent_of mc.span).getD 0)), .unspecified⟩,
                ⟨mc.span, "or if this is intentional, consider extracting the `" ++ symb
                    ++ "` initialization to a variable",
                  extract_suggestion es (snippet cx len.span "..")
                    (spaces ((cx.indent_of mc.span).getD 0)), .unspecified⟩ ] } := by
  unfold check_expr matcher at h
  cases hmc : cx.root_macro_call_first_node e with
  | none => rw [hmc] at h; exact absurd h (by simp)
  | some mc =>
    rw [hmc] at h
    dsimp only at h
    cases hva : cx.vec_args_hir e with
    | none => rw [hva] at h; exact absurd h (by simp)
    | some va =>
      rw [hva] at h
      cases va with
      | Vec args => dsimp only at h; exact absurd h (by simp)
      | Repeat elem len =>
        dsimp only at h
        cases hnr : new_reference_call cx elem with
        | none => rw [hnr] at h; exact absurd h (by simp)
        | some symb =>
          rw [hnr] at h
          dsimp only at h
          unfold emit_lint construct_lint_suggestions at h
          dsimp only at h
          cases hes : elem_snippet cx elem symb with
          | none => rw [hes] at h; exact absurd h (by simp)
          | some es =>
            rw [hes] at h
            dsimp only at h
            simp only [List.map_cons, List.map_nil, Option.some.injEq] at h
            exact ⟨mc, elem, len, symb, es, rfl, rfl, hnr, hes, h.symm⟩

/-- Structural characterization of the callee test: `new_reference_call`
succeeds exactly on calls whose callee is a type-relative path with final
segment `new`, whose written type path resolves to a definition with
diagnostic name `Arc` or `Rc`. -/
theorem new_reference_call_isSome_iff (cx : Context) (e : Expr) :
    (new_reference_call cx e).isSome = true ↔
      ∃ func args ty segment ty_path def_id name,
        e.kind = .call func args
        ∧ func.kind = .path (.typeRelative ty segment)
        ∧ ty.kind = .path ty_path
        ∧ cx.qpath_res_opt_def_id ty_path ty.hirId = some def_id
        ∧ segment.name = sym.new
        ∧ cx.get_diagnostic_name def_id = some name
        ∧ (name = sym.Arc ∨ name = sym.Rc) := by
  constructor
  · intro h
    unfold new_reference_call at h
    cases hk : e.kind with
    | call func args =>
      rw [hk] at h
      dsimp only at h
      cases hf : func.kind with
      | path qp =>
        rw [hf] at h
        cases qp with
        | typeRelative ty segment =>
          dsimp only at h
          cases ht : ty.kind with
          | path ty_path =>
            rw [ht] at h
            dsimp only at h
            cases hq : cx.qpath_res_opt_def_id ty_path ty.hirId with
            | none => rw [hq] at h; simp at h
            | some def_id =>
              rw [hq] at h
              dsimp only at h
              by_cases hseg : segment.name == sym.new
              · rw [if_pos hseg] at h
                cases hd : cx.get_diagnostic_name def_id with
                | none => rw [hd] at h; simp [Option.filter] at h
                | some name =>
                  rw [hd] at h
                  simp only [Option.filter] at h
                  by_cases hn : (name == sym.Arc || name == sym.Rc) = true
                  · refine ⟨func, args, ty, segment, ty_path, def_id, name,
                      rfl, hf, ht, hq, beq_iff_eq.mp hseg, hd, ?_⟩
                    rcases Bool.or_eq_true_iff.mp hn with h1 | h1
                    · exact Or.inl (beq_iff_eq.mp h1)
                    · exact Or.inr (beq_iff_eq.mp h1)
                  · rw [if_neg hn] at h
                    simp at h
              · rw [if_neg hseg] at h
                simp at h
          | other => rw [ht] at h; simp at h
        | otherQPath => dsimp only at h; simp at h
      | call f2 a2 => rw [hf] at h; simp at h
      | other => rw [hf] at h; simp at h
    | path qp => rw [hk] at h; simp at h
    | other => rw [hk] at h; simp at h
  · rintro ⟨func, args, ty, segment, ty_path, def_id, name, hk, hf, ht, hq, hseg, hd, hn⟩
    unfold new_reference_call
    rw [hk]
    dsimp only
    rw [hf]
    dsimp only
    rw [ht]
    dsimp only
    rw [hq]
    dsimp only
    rw [if_pos (beq_iff_eq.mpr hseg)]
    rw [hd]
    simp only [Option.filter]
    have hb : (name == sym.Arc || name == sym.Rc) = true := by
      rcases hn with h1 | h1
      · exact Bool.or_eq_true_iff.mpr (Or.inl (beq_iff_eq.mpr h1))
      · exact Bool.or_eq_true_iff.mpr (Or.inr (beq_iff_eq.mpr h1))
    rw [if_pos hb]
    rfl

/-- Characterization of the Matcher: it produces a result exactly when the
host confirms the root-macro-call and `vec![elem; len]` shapes and the
element passes the callee test. -/
theorem matcher_isSome_iff (cx : Context) (e : Expr) :
    (matcher cx e).isSome = true ↔
      ∃ mc elem len, cx.root_macro_call_first_node e = some mc
        ∧ cx.vec_args_hir e = some (.Repeat elem len)
        ∧ (new_reference_call cx elem).isSome = true := by
  constructor
  · intro h
    unfold matcher at h
    cases hmc : cx.root_macro_call_first_node e with
    | none => rw [hmc] at h; simp at h
    | some mc =>
      rw [hmc] at h
      dsimp only at h
      cases hva : cx.vec_args_hir e with
      | none => rw [hva] at h; simp at h
      | some va =>
        rw [hva] at h
        cases va with
        | Vec args => dsimp only at h; simp at h
        | Repeat elem len =>
          dsimp only at h
          cases hnr : new_reference_call cx elem with
          | none => rw [hnr] at h; simp at h
          | some symb =>
            exact ⟨mc, elem, len, rfl, rfl, by rw [hnr]; rfl⟩
  · rintro ⟨mc, elem, len, hmc, hva, hnr⟩
    obtain ⟨symb, hs⟩ := Option.isSome_iff_exists.mp hnr
    unfold matcher
    rw [hmc]
    dsimp only
    rw [hva]
    dsimp only
    rw [hs]
    rfl

/-- C1: on the program `use std::rc::Rc as R; let v = vec![R::new(\n    0,\n); 7];`
all three match conditions hold and the Matcher produces a `Rc` match, yet
no diagnostic is emitted: the element text lacks the substring `Rc::new`,
so the `unwrap` inside the snippet construction panics and emission aborts.
This falsifies the claimed implication from a produced MatchResult to a
produced diagnostic. -/
theorem matched_input_emits_no_diagnostic :
    (matcher cxR exprR).map MatchResult.symbol = some "Rc"
    ∧ check_expr cxR exprR = none := by
  exact ⟨by decide, by decide⟩

/-- C2: on the program `use std::sync::Arc as A;` with element
`A::new(String::from(\n    "x",\n))`, the Matcher confirms an `Arc` match
and the element text is multi-line, yet the substring `Arc::new` is absent
from that text, so `split_once` fails and the `unwrap` after it is
reached with `None`: suggestion construction panics instead of
succeeding. -/
theorem elem_snippet_split_failure :
    (matcher cxA exprA).map MatchResult.symbol = some "Arc"
    ∧ (snippet cxA (Expr.span elemA) "..").data.contains '\n' = true
    ∧ elem_snippet cxA elemA "Arc" = none
    ∧ check_expr cxA exprA = none := by
  exact ⟨by decide, by decide, by decide, by decide⟩

/-- C3 counterexample: on the matched element written
`std::sync::\nArc::new(..)` the source text is multi-line, yet the
abbreviated snippet equals that raw multi-line text character for
character, so the raw multi-line text is reproduced verbatim. -/
theorem multiline_text_reproduced_verbatim :
    (matcher cxQ exprQ).map MatchResult.symbol = some "Arc"
    ∧ (snippet cxQ (Expr.span elemQ) "..").data.contains '\n' = true
    ∧ elem_snippet cxQ elemQ "Arc" = some (snippet cxQ (Expr.span elemQ) "..") := by
  exact ⟨by decide, by decide, by decide⟩

/-- C3 (amended): when the element text contains `symbol_name ++ "::new"`,
the constructed snippet is the text itself for single-line text, and for
multi-line text it is the prefix up to and including the first occurrence
of that substring followed by the placeholder `(..)` (which may happen to
coincide with the raw text when the text ends right after that first
occurrence with `(..)`). -/
theorem elem_snippet_first_occurrence_spec (cx : Context) (elem : Expr) (symbol_name : String)
    (pre post : List Char)
    (hdec : (snippet cx (Expr.span elem) "..").data
      = pre ++ (symbol_name ++ "::new").data ++ post) :
    ((snippet cx (Expr.span elem) "..").data.contains '\n' = false →
        elem_snippet cx elem symbol_name = some (snippet cx (Expr.span elem) ".."))
    ∧ ((snippet cx (Expr.span elem) "..").data.contains '\n' = true →
        ∃ pre0 post0,
          (snippet cx (Expr.span elem) "..").data
            = pre0 ++ (symbol_name ++ "::new").data ++ post0
          ∧ (∀ pre1 post1,
              (snippet cx (Expr.span elem) "..").data
                = pre1 ++ (symbol_name ++ "::new").data ++ post1 →
              pre0.length ≤ pre1.length)
          ∧ elem_snippet cx elem symbol_name
              = some (String.mk pre0 ++ (symbol_name ++ "::new") ++ "(..)")) := by
  constructor
  · intro hnl
    unfold elem_snippet
    dsimp only
    rw [hnl]
    rfl
  · intro hnl
    have hsome := splitOnceChars_isSome (symbol_name ++ "::new").data pre post
    rw [← hdec] at hsome
    obtain ⟨⟨l, r⟩, hlr⟩ := Option.isSome_iff_exists.mp hsome
    obtain ⟨hldec, hmin⟩ := splitOnceChars_sound (symbol_name ++ "::new").data _ l r hlr
    refine ⟨l, r, hldec, hmin, ?_⟩
    unfold elem_snippet
    dsimp only
    rw [hnl, if_pos rfl]
    unfold split_once
    rw [hlr]
    rfl

/-- C4: the outcome of the callee test depends only on the structural shape
of the call, the final segment name, and the resolved definition identity
of the written type path, never on the path spelling itself: two calls
whose written paths resolve identically are classified identically. -/
theorem new_reference_call_resolution_invariant (cx : Context)
    (e e2 func func2 : Expr) (args args2 : List Expr) (ty ty2 : Ty)
    (segment segment2 : Ident) (p p2 : Nat)
    (he : e.kind = .call func args) (hf : func.kind = .path (.typeRelative ty segment))
    (ht : ty.kind = .path p)
    (he2 : e2.kind = .call func2 args2) (hf2 : func2.kind = .path (.typeRelative ty2 segment2))
    (ht2 : ty2.kind = .path p2)
    (hseg : segment.name = segment2.name)
    (hres : cx.qpath_res_opt_def_id p ty.hirId = cx.qpath_res_opt_def_id p2 ty2.hirId) :
    new_reference_call cx e = new_reference_call cx e2 := by
  unfold new_reference_call
  rw [he]
  dsimp only
  rw [hf]
  dsimp only
  rw [ht]
  dsimp only
  rw [he2]
  dsimp only
  rw [hf2]
  dsimp only
  rw [ht2]
  dsimp only
  simp only [hseg]
  rw [hres]

/-- C5: every emitted payload carries, as its first suggestion, the
loop-based rewrite anchored at the macro-call span: a block declaring a
capacity-preallocated vector sized by the verbatim count snippet, a
`for_each` over `0..count` pushing the element snippet once per iteration,
the vector as block value, inner lines at two indentation units and the
closing brace at one. -/
theorem first_suggestion_loop_template (cx : Context) (e : Expr) (d : DiagnosticPayload)
    (h : check_expr cx e = some d) :
    ∃ mc elem len symb es ind ls,
      cx.root_macro_call_first_node e = some mc
      ∧ cx.vec_args_hir e = some (.Repeat elem len)
      ∧ new_reference_call cx elem = some symb
      ∧ elem_snippet cx elem symb = some es
      ∧ ind = spaces ((cx.indent_of mc.span).getD 0)
      ∧ ls = snippet cx (Expr.span len) ".."
      ∧ d.suggestions.head? = some
          ⟨mc.span,
            "consider initializing each `" ++ symb ++ "` element individually",
            "\x7b\n" ++ ind ++ ind ++ "let mut v = Vec::with_capacity(" ++ ls ++ ");\n"
              ++ ind ++ ind ++ "(0.." ++ ls ++ ").for_each(|_| v.push(" ++ es ++ "));\n"
              ++ ind ++ ind ++ "v\n" ++ ind ++ "\x7d",
            .unspecified⟩ := by
  obtain ⟨mc, elem, len, symb, es, hmc, hva, hnr, hes, hd⟩ := check_expr_some_inv cx e d h
  subst hd
  exact ⟨mc, elem, len, symb, es, _, _, hmc, hva, hnr, hes, rfl, rfl, rfl⟩

/-- C6: every emitted payload carries, as its second suggestion, the
extraction rewrite anchored at the macro-call span: a block binding the
element snippet to the local name `data`, rebuilding `vec![data; len]`
with the verbatim count snippet, and yielding it. -/
theorem second_suggestion_extract_template (cx : Context) (e : Expr) (d : DiagnosticPayload)
    (h : check_expr cx e = some d) :
    ∃ mc elem len symb es ind ls,
      cx.root_macro_call_first_node e = some mc
      ∧ cx.vec_args_hir e = some (.Repeat elem len)
      ∧ new_reference_call cx elem = some symb
      ∧ elem_snippet cx elem symb = some es
      ∧ ind = spaces ((cx.indent_of mc.span).getD 0)
      ∧ ls = snippet cx (Expr.span len) ".."
      ∧ d.suggestions[1]? = some
          ⟨mc.span,
            "or if this is intentional, consider extracting the `" ++ symb
              ++ "` initialization to a variable",
            "\x7b\n" ++ ind ++ ind ++ "let data = " ++ es ++ ";\n"
              ++ ind ++ ind ++ "vec![data; " ++ ls ++ "]\n" ++ ind ++ "\x7d",
            .unspecified⟩ := by
  obtain ⟨mc, elem, len, symb, es, hmc, hva, hnr, hes, hd⟩ := check_expr_some_inv cx e d h
  subst hd
  exact ⟨mc, elem, len, symb, es, _, _, hmc, hva, hnr, hes, rfl, rfl, rfl⟩

/-- C7: every emitted payload has exactly two suggestions, loop-based
first and extraction-based second, the primary message
"calling `Name::new` in `vec![elem; len]`", the note
"each element will point to the same `Name` instance", the first caption
about initializing each element individually, and the second, conditional
caption about extracting the initialization to a variable. -/
theorem diagnostic_two_suggestions_fixed_order (cx : Context) (e : Expr) (d : DiagnosticPayload)
    (h : check_expr cx e = some d) :
    ∃ mc elem len symb,
      cx.root_macro_call_first_node e = some mc
      ∧ cx.vec_args_hir e = some (.Repeat elem len)
      ∧ new_reference_call cx elem = some symb
      ∧ d.primary_message = "calling `" ++ symb ++ "::new` in `vec![elem; len]`"
      ∧ d.note = "each element will point to the same `" ++ symb ++ "` instance"
      ∧ d.suggestions.length = 2
      ∧ d.suggestions.map Suggestion.message =
          ["consider initializing each `" ++ symb ++ "` element individually",
           "or if this is intentional, consider extracting the `" ++ symb
             ++ "` initialization to a variable"] := by
  obtain ⟨mc, elem, len, symb, es, hmc, hva, hnr, hes, hd⟩ := check_expr_some_inv cx e d h
  subst hd
  exact ⟨mc, elem, len, symb, hmc, hva, hnr, rfl, rfl, rfl, rfl⟩

/-- C8: when the indentation of the match span is undeterminable, the
indentation unit silently defaults to zero space characters and suggestion
construction proceeds exactly as with an explicit zero indentation,
completing whenever the element snippet exists. -/
theorem indentation_defaults_to_zero (cx : Context) (span : Span) (symbol_name : String)
    (elem len : Expr) (hind : cx.indent_of span = none) :
    construct_lint_suggestions cx span symbol_name elem len
      = (elem_snippet cx elem symbol_name).map (fun es =>
          [⟨"consider initializing each `" ++ symbol_name ++ "` element individually",
            loop_init_suggestion es (snippet cx (Expr.span len) "..") (spaces 0)⟩,
           ⟨"or if this is intentional, consider extracting the `" ++ symbol_name
              ++ "` initialization to a variable",
            extract_suggestion es (snippet cx (Expr.span len) "..") (spaces 0)⟩])
    ∧ ∀ es, elem_snippet cx elem symbol_name = some es →
        (construct_lint_suggestions cx span symbol_name elem len).isSome = true := by
  constructor
  · unfold construct_lint_suggestions
    dsimp only
    cases hes : elem_snippet cx elem symbol_name with
    | none => rfl
    | some es =>
      rw [hind]
      rfl
  · intro es hes
    unfold construct_lint_suggestions
    dsimp only
    rw [hes]
    rfl

/-- C9: the pass state is a fieldless singleton, so invoking the rule
twice on the same candidate with the same host capabilities leaves the
state untouched and returns identical results: the rule is a pure,
stateless function of its inputs. -/
theorem rule_is_stateless_and_idempotent (s : RcCloneInVecInit) (cx : Context) (e : Expr) :
    (s.run_check_expr cx e).1.run_check_expr cx e = s.run_check_expr cx e
    ∧ (s.run_check_expr cx e).1 = s
    ∧ ∀ t : RcCloneInVecInit, t = s := by
  refine ⟨rfl, rfl, ?_⟩
  intro t
  cases t
  cases s
  rfl

/-- C10: the rule fires only when the candidate is the first node of a
root macro call, and every part of the emitted payload — the primary
span and the span targeted by both suggestions — is the span of that
whole macro call. -/
theorem diagnostic_span_is_macro_call_span (cx : Context) (e : Expr) :
    (cx.root_macro_call_first_node e = none → check_expr cx e = none)
    ∧ ∀ d, check_expr cx e = some d →
        ∃ mc, cx.root_macro_call_first_node e = some mc
          ∧ d.span = mc.span
          ∧ ∀ s ∈ d.suggestions, s.span = mc.span := by
  constructor
  · intro hmc
    unfold check_expr matcher
    rw [hmc]
  · intro d h
    obtain ⟨mc, elem, len, symb, es, hmc, hva, hnr, hes, hd⟩ := check_expr_some_inv cx e d h
    subst hd
    refine ⟨mc, hmc, rfl, ?_⟩
    intro s hs
    simp only [List.mem_cons, List.not_mem_nil, or_false] at hs
    rcases hs with h1 | h1 <;> rw [h1]

/-- Closed instantiation of the amended C3 statement on the matched
element `std::sync::\nArc::new(..)`. -/
theorem elem_snippet_first_occurrence_spec_app :
    ∃ pre0 post0,
      (snippet cxQ (Expr.span elemQ) "..").data = pre0 ++ ("Arc" ++ "::new").data ++ post0
      ∧ (∀ pre1 post1,
          (snippet cxQ (Expr.span elemQ) "..").data
            = pre1 ++ ("Arc" ++ "::new").data ++ post1 →
          pre0.length ≤ pre1.length)
      ∧ elem_snippet cxQ elemQ "Arc"
          = some (String.mk pre0 ++ ("Arc" ++ "::new") ++ "(..)") :=
  (elem_snippet_first_occurrence_spec cxQ elemQ "Arc" "std::sync::\n".data "(..)".data
    (by decide)).2 (by decide)

/-- Closed instantiation of the C4 statement: the plain spelling and the
aliased spelling of the same `Rc` declaration are classified alike. -/
theorem new_reference_call_resolution_invariant_app :
    new_reference_call cxB elemOk = new_reference_call cxB elemB
    ∧ new_reference_call cxB elemB = some "Rc" :=
  ⟨new_reference_call_resolution_invariant cxB elemOk elemB funcOk funcB [argOk]
      [Expr.mk .other ⟨4⟩] tyOk tyB segNew segNew 5 9 rfl rfl rfl rfl rfl rfl rfl (by decide),
    by decide⟩

/-- Closed instantiation of the C5 statement on the `vec![Rc::new(0); 5]`
fixture. -/
theorem first_suggestion_loop_template_app :
    ∃ mc elem len symb es ind ls,
      cxOk.root_macro_call_first_node exprOk = some mc
      ∧ cxOk.vec_args_hir exprOk = some (.Repeat elem len)
      ∧ new_reference_call cxOk elem = some symb
      ∧ elem_snippet cxOk elem symb = some es
      ∧ ind = spaces ((cxOk.indent_of mc.span).getD 0)
      ∧ ls = snippet cxOk (Expr.span len) ".."
      ∧ dOk.suggestions.head? = some
          ⟨mc.span,
            "consider initializing each `" ++ symb ++ "` element individually",
            "\x7b\n" ++ ind ++ ind ++ "let mut v = Vec::with_capacity(" ++ ls ++ ");\n"
              ++ ind ++ ind ++ "(0.." ++ ls ++ ").for_each(|_| v.push(" ++ es ++ "));\n"
              ++ ind ++ ind ++ "v\n" ++ ind ++ "\x7d",
            .unspecified⟩ :=
  first_suggestion_loop_template cxOk exprOk dOk (by decide)

/-- Closed instantiation of the C6 statement on the `vec![Rc::new(0); 5]`
fixture. -/
theorem second_suggestion_extract_template_app :
    ∃ mc elem len symb es ind ls,
      cxOk.root_macro_call_first_node exprOk = some mc
      ∧ cxOk.vec_args_hir exprOk = some (.Repeat elem len)
      ∧ new_reference_call cxOk elem = some symb
      ∧ elem_snippet cxOk elem symb = some es
      ∧ ind = spaces ((cxOk.indent_of mc.span).getD 0)
      ∧ ls = snippet cxOk (Expr.span len) ".."
      ∧ dOk.suggestions[1]? = some
          ⟨mc.span,
            "or if this is intentional, consider extracting the `" ++ symb
              ++ "` initialization to a variable",
            "\x7b\n" ++ ind ++ ind ++ "let data = " ++ es ++ ";\n"
              ++ ind ++ ind ++ "vec![data; " ++ ls ++ "]\n" ++ ind ++ "\x7d",
            .unspecified⟩ :=
  second_suggestion_extract_template cxOk exprOk dOk (by decide)

/-- Closed instantiation of the C7 statement on the `vec![Rc::new(0); 5]`
fixture. -/
theorem diagnostic_two_suggestions_fixed_order_app :
    ∃ mc elem len symb,
      cxOk.root_macro_call_first_node exprOk = some mc
      ∧ cxOk.vec_args_hir exprOk = some (.Repeat elem len)
      ∧ new_reference_call cxOk elem = some symb
      ∧ dOk.primary_message = "calling `" ++ symb ++ "::new` in `vec![elem; len]`"
      ∧ dOk.note = "each element will point to the same `" ++ symb ++ "` instance"
      ∧ dOk.suggestions.length = 2
      ∧ dOk.suggestions.map Suggestion.message =
          ["consider initializing each `" ++ symb ++ "` element individually",
           "or if this is intentional, consider extracting the `" ++ symb
             ++ "` initialization to a variable"] :=
  diagnostic_two_suggestions_fixed_order cxOk exprOk dOk (by decide)

/-- Closed instantiation of the C8 statement: on the fixture with
undeterminable indentation the construction still completes. -/
theorem indentation_defaults_to_zero_app :
    (construct_lint_suggestions cxOk ⟨10⟩ "Rc" elemOk lenOk).isSome = true :=
  (indentation_defaults_to_zero cxOk ⟨10⟩ "Rc" elemOk lenOk rfl).2 "Rc::new(0)" (by decide)

/-- Closed instantiation of the C10 statement: silence without a root
macro call, and the macro-call span on every emitted part. -/
theorem diagnostic_span_is_macro_call_span_app :
    check_expr cxB exprOk = none
    ∧ ∃ mc, cxOk.root_macro_call_first_node exprOk = some mc
        ∧ dOk.span = mc.span
        ∧ ∀ s ∈ dOk.suggestions, s.span = mc.span :=
  ⟨(diagnostic_span_is_macro_call_span cxB exprOk).1 rfl,
    (diagnostic_span_is_macro_call_span cxOk exprOk).2 dOk (by decide)⟩
